import Mathlib

/-!
Shallow embedding of `src/executor.py`: the command-execution core of a
minimal shell.  A command descriptor (`CmdIR`, produced by the out-of-scope
parser) carries a name and a raw argument string; executors implement
`execute : input stream → output stream`, the dispatcher `processCmd` maps a
name to its executor, and the pipeline runner `runCommand` threads the
stages' streams and appends one trailing newline.

Streams (`io.StringIO` buffers) are modelled by their textual content
(`String`).  The ambient process state read by the executors — the
filesystem, the process standard input, the working directory, and the
observable behaviour of spawned child processes — is collected in an `Env`
record.  Python exceptions become an `Except CmdError` result:
`FileNotFoundError` ↦ `CmdError.fileNotFound`, `RuntimeError` ↦
`CmdError.runtimeError`, each carrying the message string.
-/

namespace ShellExec

/-- Modelled from the spec: `CmdIR` is defined in `src/clparser.py`, which is
not part of the sources; the spec describes it as an immutable pair of a
command name and the raw, unsplit argument string. -/
structure CmdIR where
  name : String
  args : String
deriving DecidableEq, Repr

/-- The two exception kinds raised by the core: `FileNotFoundError` (only by
`cat`/`wc` on a missing file) and `RuntimeError` (everything else). -/
inductive CmdError where
  | fileNotFound (msg : String)
  | runtimeError (msg : String)
deriving DecidableEq, Repr

/-- The ambient process state the executors read: the filesystem (filename to
content, `none` when the file does not exist), the process standard input,
the current working directory (`none` when it cannot be determined), and the
observable behaviour of an external child process (command name, argument
string, stdin content ↦ stdout content or failure; modelled from the spec,
since `subprocess` semantics live outside the repository). -/
structure Env where
  fs : String → Option String
  stdin : String
  cwd : Option String
  spawn : String → String → String → Except CmdError String

/-- Python's default whitespace set for `str.split()` / `str.rstrip()`
(ASCII part, which covers every string this core manipulates). -/
def pyIsSpace (c : Char) : Bool :=
  c = ' ' || c = '\t' || c = '\n' || c = '\r' || c = '\x0b' || c = '\x0c'

/-- Split a character list at every character satisfying `p`, keeping empty
fragments (the behaviour of Python's `str.split(sep)`). -/
def splitP (p : Char → Bool) : List Char → List (List Char)
  | [] => [[]]
  | c :: cs =>
    if p c then
      [] :: splitP p cs
    else
      match splitP p cs with
      | [] => [[c]]
      | q :: qs => (c :: q) :: qs

/-- Python `s.split('\n')`: split on newlines, keeping empty fragments. -/
def pySplitNl (s : String) : List String :=
  (splitP (fun c => c = '\n') s.data).map String.mk

/-- Python `s.split()` (no separator): split on whitespace runs, discarding
empty fragments. -/
def pySplitWS (s : String) : List String :=
  ((splitP pyIsSpace s.data).filter (fun t => !t.isEmpty)).map String.mk

/-- Python `s.rstrip()` (no argument): remove all trailing whitespace. -/
def pyRstrip (s : String) : String :=
  String.mk ((s.data.reverse.dropWhile pyIsSpace).reverse)

/-- Python `f.readlines()` / iteration over a text stream: split the content
on `'\n'`, keep the terminator on every line, and keep a final fragment not
ended by a newline as a line of its own. -/
def pyReadlines (s : String) : List String :=
  let parts := splitP (fun c => c = '\n') s.data
  let kept := parts.dropLast.map (fun p => p ++ ['\n']) ++
    (if parts.getLastD [] = [] then [] else [parts.getLastD []])
  kept.map String.mk

/-- `EchoExecutor.execute`: write the raw argument string to the output
stream (the guarded `ostream.write` cannot fail on a string). -/
def EchoExecutor.execute (args : String) (_istream : String) :
    Except CmdError String :=
  .ok args

/-- `PwdExecutor.execute`: write the current working directory; a failure to
determine it is converted to `RuntimeError('pwd: some bads with pwd')`. -/
def PwdExecutor.execute (env : Env) (_istream : String) :
    Except CmdError String :=
  match env.cwd with
  | some d => .ok d
  | none => .error (.runtimeError "pwd: some bads with pwd")

/-- `CatExecutor._catFromFile`: read the whole file; a missing file is
re-raised as `FileNotFoundError(f'cat: {filename}: no such file')`. -/
def CatExecutor.catFromFile (env : Env) (filename : String) :
    Except CmdError String :=
  match env.fs filename with
  | some content => .ok content
  | none => .error (.fileNotFound ("cat: " ++ filename ++ ": no such file"))

/-- `CatExecutor._catFromConsole`: concatenating the lines of `sys.stdin`
yields the whole standard-input content. -/
def CatExecutor.catFromConsole (env : Env) : String :=
  env.stdin

/-- `CatExecutor.execute`: one token → read that file; zero tokens → echo a
non-empty incoming stream, else read stdin and `rstrip` it; two or more
tokens → `RuntimeError` naming the count. -/
def CatExecutor.execute (env : Env) (args : String) (istream : String) :
    Except CmdError String :=
  let cntArgs := (pySplitWS args).length
  if cntArgs = 1 then
    CatExecutor.catFromFile env args
  else if cntArgs = 0 then
    if istream = "" then
      .ok (pyRstrip (CatExecutor.catFromConsole env))
    else
      .ok istream
  else
    .error (.runtimeError
      ("cat: cat supports only one file, but given " ++ toString cntArgs))

/-- `WcExecutor._wcFromFile`: `readlines` of the file; a missing file is
re-raised as `FileNotFoundError(f'wc: {filename}: no such file')`. -/
def WcExecutor.wcFromFile (env : Env) (filename : String) :
    Except CmdError (List String) :=
  match env.fs filename with
  | some content => .ok (pyReadlines content)
  | none => .error (.fileNotFound ("wc: " ++ filename ++ ": no such file"))

/-- `WcExecutor._wcFromConsole`: the lines of the standard input. -/
def WcExecutor.wcFromConsole (env : Env) : List String :=
  pyReadlines env.stdin

/-- `WcExecutor._wcFromIStream`: split the stream content on `'\n'`, append
a newline to every fragment, then drop the last element (`[:-1]`). -/
def WcExecutor.wcFromIStream (istream : String) : List String :=
  let splited := pySplitNl istream
  (splited.map (fun s => s ++ "\n")).dropLast

/-- The argument-dispatch part of `WcExecutor.execute`: which line list the
counting loop runs over. -/
def WcExecutor.realInput (env : Env) (args : String) (istream : String) :
    Except CmdError (List String) :=
  let cntArgs := (pySplitWS args).length
  if cntArgs = 1 then
    WcExecutor.wcFromFile env args
  else if cntArgs = 0 then
    if istream = "" then
      .ok (WcExecutor.wcFromConsole env)
    else
      .ok (WcExecutor.wcFromIStream istream)
  else
    .error (.runtimeError
      ("wc: wc supports only one file, but given " ++ toString cntArgs))

/-- The counting loop of `WcExecutor.execute`: over each line, increment the
line count, add the line's whitespace-token count, add the line's length. -/
def WcExecutor.counts (lines : List String) : Nat × Nat × Nat :=
  lines.foldl
    (fun acc line =>
      (acc.1 + 1, acc.2.1 + (pySplitWS line).length, acc.2.2 + line.length))
    (0, 0, 0)

/-- `WcExecutor.execute`: dispatch on the token count, run the counting
loop, and write `f'{lineCnt} {wordCnt} {charCnt} {filename}'` where
`filename` is the raw `self.args` field. -/
def WcExecutor.execute (env : Env) (args : String) (istream : String) :
    Except CmdError String :=
  match WcExecutor.realInput env args istream with
  | .error e => .error e
  | .ok lines =>
    let c := WcExecutor.counts lines
    .ok (toString c.1 ++ " " ++ toString c.2.1 ++ " " ++ toString c.2.2 ++
      " " ++ args)

/-- `ExternalExecutor.execute`: spawn `[name, args]`, feed the incoming
stream to the child's stdin, and capture its stdout; the child's observable
behaviour is supplied by the environment. -/
def ExternalExecutor.execute (env : Env) (name args : String)
    (istream : String) : Except CmdError String :=
  env.spawn name args istream

/-- `processCmd`: map a command name to its executor; any unrecognised name
falls through to the external-process executor. -/
def processCmd (cmd : CmdIR) (env : Env) : String → Except CmdError String :=
  if cmd.name = "echo" then
    EchoExecutor.execute cmd.args
  else if cmd.name = "pwd" then
    PwdExecutor.execute env
  else if cmd.name = "cat" then
    CatExecutor.execute env cmd.args
  else if cmd.name = "wc" then
    WcExecutor.execute env cmd.args
  else
    ExternalExecutor.execute env cmd.name cmd.args

/-- The loop of `runCommand`, instrumented: run the stages left to right,
threading each stage's output into the next stage's input and stopping at
the first error.  The first component records the input stream handed to
each stage that is actually invoked, in invocation order, so that the
order-of-invocation claims are observable; the second component is the
loop's result. -/
def runStages :
    List (String → Except CmdError String) → String →
      List String × Except CmdError String
  | [], s => ([], .ok s)
  | f :: fs, s =>
    match f s with
    | .error e => ([s], .error e)
    | .ok o =>
      let rest := runStages fs o
      (s :: rest.1, rest.2)

/-- `runCommand`: dispatch every descriptor, run the stages starting from an
empty buffer, and on success append one `'\n'` to the final buffer. -/
def runCommand (env : Env) (cmds : List CmdIR) : Except CmdError String :=
  match (runStages (cmds.map (fun c => processCmd c env)) "").2 with
  | .error e => .error e
  | .ok s => .ok (s ++ "\n")

/-- The stage-chaining relation: `Chained fs s outs` says that running the
stages `fs` in order from input `s`, each stage succeeds, stage 0 on `s` and
every later stage on the previous stage's output, producing the outputs
`outs` in order. -/
inductive Chained :
    List (String → Except CmdError String) → String → List String → Prop where
  | nil (s : String) : Chained [] s []
  | cons {f : String → Except CmdError String}
      {fs : List (String → Except CmdError String)} {s o : String}
      {outs : List String} (hf : f s = .ok o) (h : Chained fs o outs) :
      Chained (f :: fs) s (o :: outs)

/-- The line derivation §4.5 of the spec describes for a non-empty incoming
stream: split the content on newline, drop the trailing empty fragment, and
append a newline to each surviving fragment.  Written from the spec's words,
to be compared with the source's `WcExecutor.wcFromIStream`. -/
def wcIStreamLinesSpec (content : String) : List String :=
  let parts := pySplitNl content
  let kept := if parts.getLast? = some "" then parts.dropLast else parts
  kept.map (fun s => s ++ "\n")

/-- The stdin post-processing §4.4 of the spec describes for `cat`: strip
exactly one trailing newline.  Written from the spec's words, to be compared
with the source's `rstrip()`. -/
def stripOneTrailingNewlineSpec (s : String) : String :=
  if s.data.getLast? = some '\n' then String.mk s.data.dropLast else s

/-- A concrete environment for witnesses: empty filesystem, the spec's
example stdin content, a fixed working directory, inert child processes. -/
def env0 : Env :=
  { fs := fun _ => none
    stdin := "line1\nline2\n"
    cwd := some "/home/user"
    spawn := fun _ _ _ => .ok "" }

/-- A concrete environment whose filesystem holds the spec's `wc` example
file `f.txt` with content `"a b\ncc\n"`. -/
def env1 : Env :=
  { fs := fun f => if f = "f.txt" then some "a b\ncc\n" else none
    stdin := ""
    cwd := some "/home/user"
    spawn := fun _ _ _ => .ok "" }

/-- A concrete environment whose stdin content `"a\n\n"` ends in two
newlines. -/
def env2 : Env :=
  { fs := fun _ => none
    stdin := "a\n\n"
    cwd := some "/home/user"
    spawn := fun _ _ _ => .ok "" }

theorem splitP_ne_nil (p : Char → Bool) : ∀ l : List Char, splitP p l ≠ []
  | [] => by simp [splitP]
  | c :: cs => by
    by_cases hc : p c
    · simp [splitP, hc]
    · cases h : splitP p cs with
      | nil => exact absurd h (splitP_ne_nil p cs)
      | cons q qs => simp [splitP, hc, h]

theorem splitP_concat_sep (p : Char → Bool) (c : Char) (hc : p c = true) :
    ∀ l : List Char, splitP p (l ++ [c]) = splitP p l ++ [[]]
  | [] => by simp [splitP, hc]
  | d :: ds => by
    have ih := splitP_concat_sep p c hc ds
    obtain ⟨q, qs, hq⟩ : ∃ q qs, splitP p ds = q :: qs := by
      cases h : splitP p ds with
      | nil => exact absurd h (splitP_ne_nil p ds)
      | cons q qs => exact ⟨q, qs, rfl⟩
    by_cases hd : p d <;> simp [splitP, hd, ih, hq]

theorem counts_foldl (lines : List String) : ∀ a b c : Nat,
    lines.foldl
      (fun acc line =>
        (acc.1 + 1, acc.2.1 + (pySplitWS line).length,
          acc.2.2 + line.length))
      (a, b, c) =
    (a + lines.length, b + (lines.map (fun l => (pySplitWS l).length)).sum,
      c + (lines.map String.length).sum) := by
  induction lines with
  | nil => intro a b c; simp
  | cons x xs ih =>
    intro a b c
    simp only [List.foldl_cons, ih, List.length_cons, List.map_cons,
      List.sum_cons]
    refine Prod.ext ?_ (Prod.ext ?_ ?_) <;> simp <;> omega

theorem counts_eq (lines : List String) :
    WcExecutor.counts lines =
      (lines.length, (lines.map (fun l => (pySplitWS l).length)).sum,
        (lines.map String.length).sum) := by
  unfold WcExecutor.counts
  rw [counts_foldl]
  simp

theorem chained_runStages
    {fs : List (String → Except CmdError String)} {s : String}
    {outs : List String} (h : Chained fs s outs) :
    runStages fs s = ((s :: outs).dropLast, .ok (outs.getLastD s)) := by
  induction h with
  | nil s => simp [runStages]
  | cons hf h ih =>
    simp only [runStages, hf, ih, List.dropLast_cons₂, List.getLastD_cons]

theorem chained_error
    {fs : List (String → Except CmdError String)} {s : String}
    {outs : List String} (h : Chained fs s outs) :
    ∀ (g : String → Except CmdError String)
      (gs : List (String → Except CmdError String)) (e : CmdError),
      g (outs.getLastD s) = .error e →
        runStages (fs ++ g :: gs) s = (s :: outs, .error e) := by
  induction h with
  | nil s =>
    intro g gs e hg
    simp only [List.getLastD_nil] at hg
    simp [runStages, hg]
  | cons hf h ih =>
    intro g gs e hg
    rw [List.getLastD_cons] at hg
    simp [runStages, hf, ih g gs e hg]

/-- C6: for every argument string and every input stream, `echo` returns
exactly the argument string — no added whitespace or newline — and the
result does not depend on the input stream's content. -/
theorem echo_returns_args_verbatim (args istream : String) :
    EchoExecutor.execute args istream = .ok args := rfl

theorem echo_returns_args_verbatim_wit :
    EchoExecutor.execute "hello world" "ignored stream" =
      .ok "hello world" :=
  echo_returns_args_verbatim "hello world" "ignored stream"

/-- C7: `cat` with zero argument tokens and a non-empty incoming stream
returns the incoming stream's content unchanged, for every environment (in
particular, never consulting the standard input). -/
theorem cat_passthrough_nonempty_istream (env : Env) (args istream : String)
    (hargs : (pySplitWS args).length = 0) (hne : istream ≠ "") :
    CatExecutor.execute env args istream = .ok istream := by
  simp [CatExecutor.execute, hargs, hne]

theorem cat_passthrough_nonempty_istream_wit :
    (pySplitWS "").length = 0 ∧ ("xyz" : String) ≠ "" ∧
    CatExecutor.execute env0 "" "xyz" = .ok "xyz" :=
  ⟨rfl, by decide,
    cat_passthrough_nonempty_istream env0 "" "xyz" rfl (by decide)⟩

/-- C8: whenever the argument string splits on whitespace into two or more
tokens, both `cat` and `wc` fail with the generic execution error (the
`RuntimeError` kind, not `FileNotFound`), whose message says multi-file
input is unsupported and carries the actual token count. -/
theorem cat_wc_multifile_execution_error (env : Env) (args istream : String)
    (h : 2 ≤ (pySplitWS args).length) :
    CatExecutor.execute env args istream =
      .error (.runtimeError
        ("cat: cat supports only one file, but given " ++
          toString (pySplitWS args).length)) ∧
    WcExecutor.execute env args istream =
      .error (.runtimeError
        ("wc: wc supports only one file, but given " ++
          toString (pySplitWS args).length)) := by
  have h1 : ¬(pySplitWS args).length = 1 := by omega
  have h0 : ¬(pySplitWS args).length = 0 := by omega
  constructor
  · simp [CatExecutor.execute, h1, h0]
  · simp [WcExecutor.execute, WcExecutor.realInput, h1, h0]

theorem cat_wc_multifile_execution_error_wit :
    2 ≤ (pySplitWS "a b").length ∧
    CatExecutor.execute env0 "a b" "" =
      .error (.runtimeError
        ("cat: cat supports only one file, but given " ++
          toString (pySplitWS "a b").length)) ∧
    WcExecutor.execute env0 "a b" "" =
      .error (.runtimeError
        ("wc: wc supports only one file, but given " ++
          toString (pySplitWS "a b").length)) := by
  have h := cat_wc_multifile_execution_error env0 "a b" "" (by decide)
  exact ⟨by decide, h.1, h.2⟩

/-- C9: a single-token argument naming a file absent from the filesystem
makes both `cat` and `wc` fail with the `FileNotFound` error kind — distinct
from the generic execution error — whose message carries the command name
and the missing filename. -/
theorem cat_wc_missing_file_not_found (env : Env) (args istream : String)
    (h1 : (pySplitWS args).length = 1) (hfs : env.fs args = none) :
    CatExecutor.execute env args istream =
      .error (.fileNotFound ("cat: " ++ args ++ ": no such file")) ∧
    WcExecutor.execute env args istream =
      .error (.fileNotFound ("wc: " ++ args ++ ": no such file")) := by
  constructor
  · simp [CatExecutor.execute, CatExecutor.catFromFile, h1, hfs]
  · simp [WcExecutor.execute, WcExecutor.realInput, WcExecutor.wcFromFile,
      h1, hfs]

theorem cat_wc_missing_file_not_found_wit :
    (pySplitWS "ghost.txt").length = 1 ∧ env0.fs "ghost.txt" = none ∧
    CatExecutor.execute env0 "ghost.txt" "" =
      .error (.fileNotFound ("cat: " ++ "ghost.txt" ++ ": no such file")) ∧
    WcExecutor.execute env0 "ghost.txt" "" =
      .error (.fileNotFound ("wc: " ++ "ghost.txt" ++ ": no such file")) := by
  have h := cat_wc_missing_file_not_found env0 "ghost.txt" "" (by decide) rfl
  exact ⟨by decide, rfl, h.1, h.2⟩

/-- C10: the empty pipeline succeeds and its entire result is the single
newline character. -/
theorem runCommand_empty_pipeline (env : Env) :
    runCommand env [] = .ok "\n" := rfl

theorem runCommand_empty_pipeline_wit : runCommand env0 [] = .ok "\n" :=
  runCommand_empty_pipeline env0

/-- C4 (amended): `cat` with zero argument tokens and an empty incoming
stream returns the standard-input content with all trailing whitespace
stripped (Python `rstrip()`), not with exactly one trailing newline
stripped; on the spec's example stdin `"line1\nline2\n"` this still yields
`"line1\nline2"`. -/
theorem cat_stdin_rstrips_trailing_whitespace (env : Env)
    (args istream : String) (hargs : (pySplitWS args).length = 0)
    (hstream : istream = "") :
    CatExecutor.execute env args istream = .ok (pyRstrip env.stdin) := by
  subst hstream
  simp [CatExecutor.execute, CatExecutor.catFromConsole, hargs]

theorem cat_stdin_rstrips_trailing_whitespace_wit :
    (pySplitWS "").length = 0 ∧ ("" : String) = "" ∧
    CatExecutor.execute env0 "" "" = .ok (pyRstrip env0.stdin) ∧
    pyRstrip env0.stdin = "line1\nline2" :=
  ⟨rfl, rfl, cat_stdin_rstrips_trailing_whitespace env0 "" "" rfl rfl, rfl⟩

/-- C4 (counterexample): with stdin content `"a\n\n"`, `cat` with zero
tokens and empty incoming stream returns `"a"`, while stripping exactly one
trailing newline would return `"a\n"`. -/
theorem cat_stdin_strips_more_than_one_newline :
    CatExecutor.execute env2 "" "" = .ok "a" ∧
    stripOneTrailingNewlineSpec env2.stdin = "a\n" ∧
    CatExecutor.execute env2 "" "" ≠
      .ok (stripOneTrailingNewlineSpec env2.stdin) := by
  refine ⟨rfl, rfl, ?_⟩
  intro hcontra
  rw [show CatExecutor.execute env2 "" "" = .ok "a" from rfl,
    show stripOneTrailingNewlineSpec env2.stdin = "a\n" from rfl] at hcontra
  exact absurd (Except.ok.inj hcontra) (by decide)

/-- C3 (amended): `wc` derives the line sequence of a non-empty incoming
stream by splitting the content on newline, appending a newline to every
fragment, and dropping the final element; whenever the stream content ends
in a newline this coincides with the spec's description (drop the trailing
empty fragment, append a newline to each survivor). -/
theorem wcFromIStream_matches_spec_of_trailing_newline (content : String)
    (h : content.data.getLast? = some '\n') :
    WcExecutor.wcFromIStream content = wcIStreamLinesSpec content := by
  have hne : content.data ≠ [] := by
    intro hnil
    rw [hnil] at h
    simp at h
  have hdecomp : content.data = content.data.dropLast ++ ['\n'] := by
    rw [List.getLast?_eq_getLast content.data hne] at h
    have hlast : content.data.getLast hne = '\n' := Option.some.inj h
    conv_lhs => rw [← List.dropLast_append_getLast hne]
    rw [hlast]
  have hmk : String.mk ([] : List Char) = "" := rfl
  unfold WcExecutor.wcFromIStream wcIStreamLinesSpec pySplitNl
  rw [hdecomp,
    splitP_concat_sep (fun c => c = '\n') '\n' (by decide)
      content.data.dropLast]
  simp [hmk, List.getLast?_concat, List.dropLast_concat]

theorem wcFromIStream_matches_spec_wit :
    ("a\n" : String).data.getLast? = some '\n' ∧
    WcExecutor.wcFromIStream "a\n" = wcIStreamLinesSpec "a\n" :=
  ⟨by decide, wcFromIStream_matches_spec_of_trailing_newline "a\n" (by decide)⟩

/-- C3 (counterexample): on the incoming stream `"a\nb"`, which does not end
in a newline, the code derives `["a\n"]` — the final fragment `"b"` is
dropped — while the claim's derivation (split, drop the trailing empty
fragment, append a newline to each survivor) yields `["a\n", "b\n"]`. -/
theorem wcFromIStream_drops_dangling_fragment :
    WcExecutor.wcFromIStream "a\nb" = ["a\n"] ∧
    wcIStreamLinesSpec "a\nb" = ["a\n", "b\n"] ∧
    WcExecutor.wcFromIStream "a\nb" ≠ wcIStreamLinesSpec "a\nb" := by
  refine ⟨rfl, rfl, ?_⟩
  decide

/-- C5: every successful `wc` execution outputs the single string
`"{lines} {words} {chars} {nameField}"` over the derived line sequence,
where `lines` is the number of lines, `words` the sum over lines of
whitespace-delimited tokens, `chars` the sum of line lengths, and
`nameField` is the raw argument string reused verbatim (so the empty string
when no argument was given). -/
theorem wc_output_format (env : Env) (args istream o : String)
    (h : WcExecutor.execute env args istream = .ok o) :
    ∃ lines, WcExecutor.realInput env args istream = .ok lines ∧
      o = toString lines.length ++ " " ++
        toString ((lines.map (fun l => (pySplitWS l).length)).sum) ++ " " ++
        toString ((lines.map String.length).sum) ++ " " ++ args := by
  unfold WcExecutor.execute at h
  cases hreal : WcExecutor.realInput env args istream with
  | error e =>
    rw [hreal] at h
    exact absurd h (by simp)
  | ok lines =>
    rw [hreal] at h
    simp only [counts_eq] at h
    exact ⟨lines, rfl, (Except.ok.inj h).symm⟩

theorem wc_output_format_wit :
    WcExecutor.execute env1 "f.txt" "" = .ok "2 3 7 f.txt" ∧
    ∃ lines, WcExecutor.realInput env1 "f.txt" "" = .ok lines ∧
      "2 3 7 f.txt" = toString lines.length ++ " " ++
        toString ((lines.map (fun l => (pySplitWS l).length)).sum) ++ " " ++
        toString ((lines.map String.length).sum) ++ " " ++ "f.txt" :=
  ⟨rfl, wc_output_format env1 "f.txt" "" "2 3 7 f.txt" rfl⟩

/-- C1: when every stage of a pipeline succeeds, the runner hands stage 0
the empty stream and each later stage exactly the previous stage's output
(the recorded invocation inputs are `"" :: outs.dropLast`, in invocation
order), and the pipeline's result is the final stage's output with exactly
one newline appended — no newline is inserted between stages, since each
recorded input is the previous stage's raw output. -/
theorem runCommand_chains_stages (env : Env) (cmds : List CmdIR)
    (outs : List String)
    (h : Chained (cmds.map (fun c => processCmd c env)) "" outs) :
    (runStages (cmds.map (fun c => processCmd c env)) "").1 =
      ("" :: outs).dropLast ∧
    runCommand env cmds = .ok (outs.getLastD "" ++ "\n") := by
  have hrun := chained_runStages h
  refine ⟨by rw [hrun], ?_⟩
  unfold runCommand
  rw [hrun]

theorem runCommand_chains_stages_wit :
    Chained ([CmdIR.mk "echo" "hi", CmdIR.mk "cat" ""].map
      (fun c => processCmd c env0)) "" ["hi", "hi"] ∧
    (runStages ([CmdIR.mk "echo" "hi", CmdIR.mk "cat" ""].map
        (fun c => processCmd c env0)) "").1 =
      ("" :: ["hi", "hi"]).dropLast ∧
    runCommand env0 [CmdIR.mk "echo" "hi", CmdIR.mk "cat" ""] =
      .ok (["hi", "hi"].getLastD "" ++ "\n") := by
  have hch : Chained ([CmdIR.mk "echo" "hi", CmdIR.mk "cat" ""].map
      (fun c => processCmd c env0)) "" ["hi", "hi"] :=
    Chained.cons rfl (Chained.cons rfl (Chained.nil "hi"))
  have h := runCommand_chains_stages env0
    [CmdIR.mk "echo" "hi", CmdIR.mk "cat" ""] ["hi", "hi"] hch
  exact ⟨hch, h.1, h.2⟩

/-- C2: if the stages before `c` all succeed and `c`'s executor fails with
error `e` on the previous stage's output, the runner's result is exactly
`.error e` (same kind and message, no partial result), and the recorded
invocation inputs are exactly those of stages `0..k` — the stages after the
failing one are never invoked, whatever they are. -/
theorem runCommand_aborts_on_first_error (env : Env) (cmds1 : List CmdIR)
    (c : CmdIR) (cmds2 : List CmdIR) (outs : List String) (e : CmdError)
    (hch : Chained (cmds1.map (fun x => processCmd x env)) "" outs)
    (he : processCmd c env (outs.getLastD "") = .error e) :
    runStages ((cmds1 ++ c :: cmds2).map (fun x => processCmd x env)) "" =
      ("" :: outs, .error e) ∧
    runCommand env (cmds1 ++ c :: cmds2) = .error e := by
  have hrun := chained_error hch (processCmd c env)
    (cmds2.map (fun x => processCmd x env)) e he
  have hmap : (cmds1 ++ c :: cmds2).map (fun x => processCmd x env) =
      cmds1.map (fun x => processCmd x env) ++
        processCmd c env :: cmds2.map (fun x => processCmd x env) := by
    simp
  refine ⟨by rw [hmap]; exact hrun, ?_⟩
  unfold runCommand
  rw [hmap, hrun]

theorem runCommand_aborts_on_first_error_wit :
    Chained ([CmdIR.mk "echo" "hi"].map (fun x => processCmd x env0)) ""
      ["hi"] ∧
    processCmd (CmdIR.mk "cat" "a b") env0 (["hi"].getLastD "") =
      .error (.runtimeError "cat: cat supports only one file, but given 2") ∧
    runStages (([CmdIR.mk "echo" "hi"] ++
        CmdIR.mk "cat" "a b" :: [CmdIR.mk "echo" "x"]).map
      (fun x => processCmd x env0)) "" =
      ("" :: ["hi"],
        .error (.runtimeError
          "cat: cat supports only one file, but given 2")) ∧
    runCommand env0 ([CmdIR.mk "echo" "hi"] ++
        CmdIR.mk "cat" "a b" :: [CmdIR.mk "echo" "x"]) =
      .error (.runtimeError "cat: cat supports only one file, but given 2") := by
  have hch : Chained ([CmdIR.mk "echo" "hi"].map
      (fun x => processCmd x env0)) "" ["hi"] :=
    Chained.cons rfl (Chained.nil "hi")
  have he : processCmd (CmdIR.mk "cat" "a b") env0 (["hi"].getLastD "") =
      .error (.runtimeError "cat: cat supports only one file, but given 2") :=
    rfl
  have h := runCommand_aborts_on_first_error env0 [CmdIR.mk "echo" "hi"]
    (CmdIR.mk "cat" "a b") [CmdIR.mk "echo" "x"] ["hi"]
    (.runtimeError "cat: cat supports only one file, but given 2") hch he
  exact ⟨hch, he, h.1, h.2⟩

end ShellExec
